import Mathlib

/-!
Verification of the renter proto core (contract set, revision editor) of the
Sia repository. Definitions are shallow embeddings of the Go source in
src/modules/renter/proto/editor.go (which contains both the editor and the
contract-set file). Machine integers are modelled as Nat with explicit
reduction modulo 2 to the 64 where the Go code performs uint64 arithmetic.
Parts of the repository that the source file calls but that are not included
in src (the SafeContract persistence helpers, the types.Currency arithmetic,
build.VersionCmp, build.Critical and the crypto cached Merkle tree) are
modelled from the spec; each such definition carries a doc comment saying so.
-/

/-- Hashes are opaque fixed-size values; modelled as Nat. -/
abbrev Hash := Nat

/-- types.Currency is an unbounded non-negative integer; modelled as Nat. -/
abbrev Currency := Nat

/-- 2 to the 64, the modulus of Go uint64 arithmetic. -/
def U64 : Nat := 18446744073709551616

/-- modules.SectorSize = 1 <<< 22 bytes. -/
def SectorSize : Nat := 4194304

/-- crypto.SegmentSize = 64 bytes. -/
def SegmentSize : Nat := 64

/-- Go uint64 subtraction: wraps modulo 2 to the 64. -/
def sub64 (a b : Nat) : Nat := (a % U64 + (U64 - b % U64)) % U64

/-- The loop computing sectorHeight in editor.go: the least h with
1 <<< h at least SectorSize / SegmentSize, run with bounded fuel. -/
def sectorHeightLoop : Nat → Nat → Nat
  | 0, h => h
  | fuel + 1, h =>
    if 1 <<< h < SectorSize / SegmentSize then sectorHeightLoop fuel (h + 1) else h

/-- sectorHeight from editor.go: the height of a Merkle tree covering one
sector. -/
def sectorHeight : Nat := sectorHeightLoop 64 0

/-!
## The cached Merkle tree

Modelled from the spec: the crypto package (a wrapper over the merkletree
dependency) is not under src. The spec describes a cached, height-bounded
streaming tree over an ordered sequence of sector hashes: pushing a hash
inserts a subtree of the fixed cached height and repeatedly joins adjacent
subtrees of equal height; the root folds the remaining subtrees together,
smallest (most recent) first. The pair-joining function is abstract here, so
every theorem below holds for any choice of hash combiner.
-/

/-- Push a subtree (height, hash) onto the stack of cached subtrees, joining
while the next subtree on the stack has the same height. The stack head is
the most recently pushed (smallest) subtree; join takes the older subtree on
the left. -/
def pushAt (join : Hash → Hash → Hash) (height : Nat) (h : Hash) :
    List (Nat × Hash) → List (Nat × Hash)
  | [] => [(height, h)]
  | (h2, b) :: rest =>
    if height = h2 then pushAt join (height + 1) (join b h) rest
    else (height, h) :: (h2, b) :: rest

/-- A cached Merkle tree: the fixed per-leaf height plus the subtree stack.
The cached height shifts leaf indexes in the real implementation but does not
affect the root, mirroring the source note that it is not strictly needed. -/
structure CachedTree where
  cachedHeight : Nat
  stack : List (Nat × Hash)
deriving DecidableEq

/-- crypto.NewCachedTree: an empty tree of the given cached height. -/
def newCachedTree (height : Nat) : CachedTree := ⟨height, []⟩

/-- CachedTree.Push: insert one sector hash. -/
def CachedTree.push (t : CachedTree) (join : Hash → Hash → Hash) (h : Hash) :
    CachedTree :=
  ⟨t.cachedHeight, pushAt join 0 h t.stack⟩

/-- CachedTree.Root: fold the subtree stack together, most recent first; the
empty tree has the zero hash as root. -/
def CachedTree.root (t : CachedTree) (join : Hash → Hash → Hash) : Hash :=
  match t.stack with
  | [] => 0
  | (_, a) :: rest => rest.foldl (fun acc p => join p.2 acc) a

/-- cachedMerkleRoot from editor.go: build a cached tree of height
sectorHeight by pushing every root in order, then read off the root. -/
def cachedMerkleRoot (join : Hash → Hash → Hash) (roots : List Hash) : Hash :=
  let tree := roots.foldl (fun t h => t.push join h) (newCachedTree sectorHeight)
  tree.root join

/-- Claim C7: for every sequence of sector-root hashes and every additional
hash, the Merkle root computed by rebuilding the whole tree from scratch over
the extended sequence equals the root obtained by pushing the one extra hash
onto the tree incrementally built over the original sequence; and the root is
a deterministic function of the sequence and its order. -/
theorem merkle_incremental_append (join : Hash → Hash → Hash)
    (roots : List Hash) (h : Hash) :
    (cachedMerkleRoot join (roots ++ [h]) =
      (((roots.foldl (fun t x => t.push join x)
          (newCachedTree sectorHeight)).push join h).root join)) ∧
    (∀ roots1 roots2 : List Hash, roots1 = roots2 →
      cachedMerkleRoot join roots1 = cachedMerkleRoot join roots2) := by
  constructor
  · simp [cachedMerkleRoot, List.foldl_append]
  · intro roots1 roots2 hr
    rw [hr]

/-- Witness for C7 at a concrete sequence and hash. -/
theorem merkle_incremental_append_witness :
    (cachedMerkleRoot (fun a b => a + 2 * b) ([5, 9] ++ [11]) =
      ((([5, 9].foldl (fun t x => t.push (fun a b => a + 2 * b) x)
          (newCachedTree sectorHeight)).push (fun a b => a + 2 * b) 11).root
            (fun a b => a + 2 * b))) ∧
    cachedMerkleRoot (fun a b => a + 2 * b) [5, 9] =
      cachedMerkleRoot (fun a b => a + 2 * b) [5, 9] := by
  exact ⟨(merkle_incremental_append (fun a b => a + 2 * b) [5, 9] 11).1,
    (merkle_incremental_append (fun a b => a + 2 * b) [5, 9] 11).2 [5, 9] [5, 9] rfl⟩

/-!
## Data model: host entries, contract headers, contracts, the contract set
-/

/-- modules.HostDBEntry, restricted to the fields this core reads: prices,
collateral rate, protocol version and public key. The version string is
modelled as its list of dot-separated numeric components. -/
structure HostDBEntry where
  storagePrice : Currency
  uploadBandwidthPrice : Currency
  collateral : Currency
  version : List Nat
  publicKey : Nat
deriving DecidableEq

/-- Modelled from the spec: the contract header fields this core must read
from the latest revision (the SafeContract persistence file is not under
src): remaining renter funds, the missed-proof collateral output value, the
window-end height, the embedded file Merkle root, a secret key for signing
and the public key identifying the counterparty host. -/
structure ContractHeader where
  renterFunds : Currency
  missedCollateralValue : Currency
  windowEnd : Nat
  newFileMerkleRoot : Hash
  secretKey : Nat
  hostPublicKey : Nat
deriving DecidableEq

/-- A SafeContract: identifier, latest header, ordered sector-root manifest
and the per-contract lock flag. -/
structure SafeContract where
  id : Nat
  header : ContractHeader
  merkleRoots : List Hash
  locked : Bool
deriving DecidableEq

/-- The redacted metadata snapshot (omits the sector manifest). -/
structure ContractMetadata where
  id : Nat
  renterFunds : Currency
deriving DecidableEq

/-- SafeContract.Metadata. -/
def SafeContract.metadata (c : SafeContract) : ContractMetadata :=
  ⟨c.id, c.header.renterFunds⟩

/-- A ContractSet: the map from contract identifier to contract, modelled as
an association list with unique keys. -/
structure ContractSet where
  contracts : List (Nat × SafeContract)
deriving DecidableEq

/-- Lookup in the contract map (first entry with the given key). -/
def findContract : List (Nat × SafeContract) → Nat → Option SafeContract
  | [], _ => none
  | (k, v) :: rest, id => if k = id then some v else findContract rest id

/-- Replace the entry with the given key (the map counterpart of mutating a
contract through its pointer; keys are unique). -/
def updateEntry : List (Nat × SafeContract) → Nat → SafeContract →
    List (Nat × SafeContract)
  | [], _, _ => []
  | (k, v) :: rest, id, c =>
    if k = id then (id, c) :: updateEntry rest id c
    else (k, v) :: updateEntry rest id c

theorem updateEntry_keys (m : List (Nat × SafeContract)) (id : Nat)
    (c : SafeContract) :
    (updateEntry m id c).map Prod.fst = m.map Prod.fst := by
  induction m with
  | nil => rfl
  | cons p rest ih =>
    obtain ⟨k, v⟩ := p
    by_cases hk : k = id
    · subst hk
      simp [updateEntry, ih]
    · simp [updateEntry, hk, ih]

theorem findContract_updateEntry_ne (m : List (Nat × SafeContract)) (id : Nat)
    (c : SafeContract) (j : Nat) (hj : j ≠ id) :
    findContract (updateEntry m id c) j = findContract m j := by
  induction m with
  | nil => rfl
  | cons p rest ih =>
    obtain ⟨k, v⟩ := p
    by_cases hk : k = id
    · subst hk
      have hkj : ¬(k = j) := fun hh => hj hh.symm
      simp [updateEntry, findContract, hkj, ih]
    · by_cases hkj : k = j
      · simp [updateEntry, findContract, hk, hkj, hj]
      · simp [updateEntry, findContract, hk, hkj, ih]

theorem findContract_updateEntry_self (m : List (Nat × SafeContract)) (id : Nat)
    (c d : SafeContract) (hm : findContract m id = some d) :
    findContract (updateEntry m id c) id = some c := by
  induction m with
  | nil => simp [findContract] at hm
  | cons p rest ih =>
    obtain ⟨k, v⟩ := p
    by_cases hk : k = id
    · subst hk
      simp [updateEntry, findContract]
    · simp only [findContract, if_neg hk] at hm
      simp [updateEntry, findContract, hk, ih hm]

/-!
## Pricing
-/

/-- Modelled from the spec: build.VersionCmp over dot-separated numeric
version strings, on their numeric components: elementwise comparison, a
longer version with an equal prefix comparing greater. -/
def versionCmpList : List Nat → List Nat → Ordering
  | [], [] => Ordering.eq
  | [], _ :: _ => Ordering.lt
  | _ :: _, [] => Ordering.gt
  | a :: as, b :: bs =>
    if a < b then Ordering.lt
    else if b < a then Ordering.gt
    else versionCmpList as bs

/-- The minimum compatibility version "1.0.1" above which the leeway factor
is applied. -/
def minVersion : List Nat := [1, 0, 1]

/-- Modelled from the spec: types.Currency.MulFloat as exact rational
multiplication with floor division; the leeway factors 1.002 and 0.998 are
taken as the exact rationals 1002/1000 and 998/1000. -/
def mulFrac (x num den : Nat) : Nat := x * num / den

/-- hostPriceLeeway, Standard build: 0.002, as the rational
hostPriceLeewayNum / hostPriceLeewayDen. -/
def hostPriceLeewayNum : Nat := 2

/-- Denominator of the leeway fraction. -/
def hostPriceLeewayDen : Nat := 1000

/-- The price computation from Editor.Upload: blockBytes is
SectorSize * (windowEnd - height) in wrapping uint64 arithmetic; storage
price, bandwidth price and collateral follow, with the leeway adjustment for
hosts whose version compares strictly above minVersion. Returns
(storage price, bandwidth price, collateral). -/
def sectorPrices (host : HostDBEntry) (hdr : ContractHeader) (height : Nat) :
    Currency × Currency × Currency :=
  let blockBytes : Currency := SectorSize * sub64 hdr.windowEnd height % U64
  let sp := host.storagePrice * blockBytes
  let bp := host.uploadBandwidthPrice * SectorSize
  let col := host.collateral * blockBytes
  if versionCmpList host.version minVersion = Ordering.gt then
    (mulFrac sp (hostPriceLeewayDen + hostPriceLeewayNum) hostPriceLeewayDen,
     mulFrac bp (hostPriceLeewayDen + hostPriceLeewayNum) hostPriceLeewayDen,
     mulFrac col (hostPriceLeewayDen - hostPriceLeewayNum) hostPriceLeewayDen)
  else
    (sp, bp, col)

theorem sub64_eq_sub (a b : Nat) (hba : b ≤ a) (ha : a < U64) :
    sub64 a b = a - b := by
  have hb : b < U64 := Nat.lt_of_le_of_lt hba ha
  unfold sub64 U64 at *
  omega

/-- Claim C2: with coverage = sector size times (window-end height minus the
captured session height), the storage price is the host storage price times
coverage, the bandwidth price is the host upload price times the sector size,
and the collateral is the host collateral rate times coverage; hosts whose
version compares strictly above 1.0.1 get price multiplied by 1 + leeway and
collateral by 1 - leeway (leeway = 0.002 as the exact rational 2/1000), and
other hosts get the unadjusted values. The hypotheses rule out uint64
wraparound in the Go coverage computation. -/
theorem upload_pricing (host : HostDBEntry) (hdr : ContractHeader) (height : Nat)
    (h1 : height ≤ hdr.windowEnd) (h2 : hdr.windowEnd < U64)
    (h3 : SectorSize * (hdr.windowEnd - height) < U64) :
    (versionCmpList host.version minVersion = Ordering.gt →
      sectorPrices host hdr height =
        (mulFrac (host.storagePrice * (SectorSize * (hdr.windowEnd - height))) 1002 1000,
         mulFrac (host.uploadBandwidthPrice * SectorSize) 1002 1000,
         mulFrac (host.collateral * (SectorSize * (hdr.windowEnd - height))) 998 1000)) ∧
    (versionCmpList host.version minVersion ≠ Ordering.gt →
      sectorPrices host hdr height =
        (host.storagePrice * (SectorSize * (hdr.windowEnd - height)),
         host.uploadBandwidthPrice * SectorSize,
         host.collateral * (SectorSize * (hdr.windowEnd - height)))) := by
  have hbb : SectorSize * sub64 hdr.windowEnd height % U64 =
      SectorSize * (hdr.windowEnd - height) := by
    rw [sub64_eq_sub hdr.windowEnd height h1 h2, Nat.mod_eq_of_lt h3]
  constructor
  · intro hv
    simp [sectorPrices, hbb, hv, hostPriceLeewayDen, hostPriceLeewayNum]
  · intro hv
    simp [sectorPrices, hbb, hv]

/-- Witness for C2 at a concrete host (version 1.0.2, above the threshold),
window end 100 and height 0. -/
theorem upload_pricing_witness :
    ((0 : Nat) ≤ (100 : Nat) ∧ (100 : Nat) < U64 ∧
      SectorSize * (100 - 0) < U64 ∧
      versionCmpList [1, 0, 2] minVersion = Ordering.gt) ∧
    sectorPrices ⟨1, 2, 3, [1, 0, 2], 0⟩ ⟨0, 0, 100, 0, 0, 0⟩ 0 =
      (mulFrac (1 * (SectorSize * (100 - 0))) 1002 1000,
       mulFrac (2 * SectorSize) 1002 1000,
       mulFrac (3 * (SectorSize * (100 - 0))) 998 1000) := by
  refine ⟨⟨by decide, by decide, by decide, by decide⟩, ?_⟩
  exact (upload_pricing ⟨1, 2, 3, [1, 0, 2], 0⟩ ⟨0, 0, 100, 0, 0, 0⟩ 0
    (by decide) (by decide) (by decide)).1 (by decide)

/-!
## The revision session (Editor)
-/

/-- A network or protocol error as seen by the session: whether
IsRevisionMismatch holds of it, whether it is the modules.ErrStopResponse
sentinel, and a tag distinguishing otherwise-equal errors. -/
structure NetErr where
  isRevisionMismatch : Bool
  isStopResponse : Bool
  tag : Nat
deriving DecidableEq

/-- Observable side effects of a session operation: contract acquisitions,
network protocol steps begun, and the two host-reputation counter
increments; stopClosedConn records the local connection close taken on a
host-signalled graceful stop. -/
structure Effects where
  acquires : Nat
  netOps : Nat
  failedInc : Nat
  successInc : Nat
  stopClosedConn : Bool
deriving DecidableEq

/-- No observable effects. -/
def noEffects : Effects := ⟨0, 0, 0, 0, false⟩

/-- Effects of a call that only acquired and released the contract. -/
def acquireOnlyEffects : Effects := ⟨1, 0, 0, 0, false⟩

/-- Add the contract acquisition performed by Upload to the effects of the
inner revision iteration. -/
def withAcquire (e : Effects) : Effects :=
  ⟨e.acquires + 1, e.netOps, e.failedInc, e.successInc, e.stopClosedConn⟩

/-- The outcomes of the three network steps of one revision iteration:
startRevision, writing the action list, and negotiateRevision (which yields
a signed transaction and possibly an error). These model the behavior of
the remote host and of the connection. -/
structure NetOutcomes where
  startErr : Option NetErr
  actionsErr : Option NetErr
  negotiateTxn : Nat
  negotiateErr : Option NetErr
deriving DecidableEq

/-- Editor.runRevisionIteration: start the revision, send the actions, then
negotiate the revision and exchange signatures. The deferred reputation
update increments the failed counter on any returned error and the success
counter otherwise; a host-signalled stop during negotiation closes the
connection locally but still returns the signed transaction with a nil
error. netOps counts the protocol steps begun. -/
def runRevisionIteration (net : NetOutcomes) : Except NetErr Nat × Effects :=
  match net.startErr with
  | some e => (Except.error e, ⟨0, 1, 1, 0, false⟩)
  | none =>
    match net.actionsErr with
    | some e => (Except.error e, ⟨0, 2, 1, 0, false⟩)
    | none =>
      match net.negotiateErr with
      | some e =>
        if e.isStopResponse then (Except.ok net.negotiateTxn, ⟨0, 3, 0, 1, true⟩)
        else (Except.error e, ⟨0, 3, 1, 0, false⟩)
      | none => (Except.ok net.negotiateTxn, ⟨0, 3, 0, 1, false⟩)

/-- The editor state Upload reads: the bound contract identifier, the host
descriptor and the height snapshot captured at session construction. -/
structure Editor where
  contractID : Nat
  host : HostDBEntry
  height : Nat
deriving DecidableEq

/-- The errors Upload can return. -/
inductive UploadErr
  | contractNotPresent
  | insufficientFunds
  | insufficientCollateral
  | network (e : NetErr)
  | persistence
deriving DecidableEq

/-- Modelled from the spec: newUploadRevision builds the revision embedding
the new file Merkle root and the updated payouts, the price moving to the
host and the collateral remaining pledged: renter funds decrease by the
price, the missed-proof collateral output decreases by the collateral. -/
def newUploadRevision (hdr : ContractHeader) (merkleRoot : Hash)
    (price collateral : Currency) : ContractHeader :=
  ⟨hdr.renterFunds - price, hdr.missedCollateralValue - collateral,
   hdr.windowEnd, merkleRoot, hdr.secretKey, hdr.hostPublicKey⟩

/-- Editor.Upload: acquire the contract (error if absent), compute prices,
run the two validation checks, compute the new sector root and Merkle root,
run the revision iteration, and on success durably record the upload
(RecordUpload, modelled from the spec: append the sector root to the
manifest and replace the header with the new revision; recordErr models a
persistence failure, which leaves the set unchanged). The given segHash and
join functions stand for the sector content hash and the Merkle pair
combiner. -/
def upload (he : Editor) (cs : ContractSet) (data : List Nat)
    (segHash : List Nat → Hash) (join : Hash → Hash → Hash)
    (net : NetOutcomes) (recordErr : Bool) :
    Except UploadErr (ContractMetadata × Hash) × Effects × ContractSet :=
  match findContract cs.contracts he.contractID with
  | none => (Except.error UploadErr.contractNotPresent, noEffects, cs)
  | some sc =>
    let prices := sectorPrices he.host sc.header he.height
    let sectorPrice := prices.1 + prices.2.1
    let sectorCollateral := prices.2.2
    if sc.header.renterFunds < sectorPrice then
      (Except.error UploadErr.insufficientFunds, acquireOnlyEffects, cs)
    else if sc.header.missedCollateralValue < sectorCollateral then
      (Except.error UploadErr.insufficientCollateral, acquireOnlyEffects, cs)
    else
      let sectorRoot := segHash data
      let newRoots := sc.merkleRoots ++ [sectorRoot]
      let merkleRoot := cachedMerkleRoot join newRoots
      let rev := newUploadRevision sc.header merkleRoot sectorPrice sectorCollateral
      match runRevisionIteration net with
      | (Except.error e, eff) =>
        (Except.error (UploadErr.network e), withAcquire eff, cs)
      | (Except.ok _txn, eff) =>
        if recordErr then (Except.error UploadErr.persistence, withAcquire eff, cs)
        else
          let c2 : SafeContract := ⟨sc.id, rev, newRoots, sc.locked⟩
          let cs2 : ContractSet := ⟨updateEntry cs.contracts he.contractID c2⟩
          (Except.ok (c2.metadata, sectorRoot), withAcquire eff, cs2)

/-- Claim C1: for every Upload call on a session whose contract is present in
the set, if remaining renter funds are below the total price (storage plus
bandwidth) the call returns the insufficient-funds error, and otherwise if
the missed-proof collateral output is below the required collateral it
returns the insufficient-collateral error; in both cases with no network
step performed and neither reputation counter incremented (the effects are
exactly the contract acquisition and release), and the set unchanged. -/
theorem upload_validation_rejections (he : Editor) (cs : ContractSet)
    (data : List Nat) (segHash : List Nat → Hash) (join : Hash → Hash → Hash)
    (net : NetOutcomes) (recordErr : Bool) (sc : SafeContract)
    (hfound : findContract cs.contracts he.contractID = some sc) :
    (sc.header.renterFunds <
        (sectorPrices he.host sc.header he.height).1 +
          (sectorPrices he.host sc.header he.height).2.1 →
      upload he cs data segHash join net recordErr =
        (Except.error UploadErr.insufficientFunds, acquireOnlyEffects, cs)) ∧
    (¬ sc.header.renterFunds <
        (sectorPrices he.host sc.header he.height).1 +
          (sectorPrices he.host sc.header he.height).2.1 →
      sc.header.missedCollateralValue <
        (sectorPrices he.host sc.header he.height).2.2 →
      upload he cs data segHash join net recordErr =
        (Except.error UploadErr.insufficientCollateral, acquireOnlyEffects, cs)) := by
  constructor
  · intro hf
    simp [upload, hfound, hf]
  · intro hnf hc
    simp [upload, hfound, hnf, hc]

/-- A concrete host whose bandwidth price alone exceeds the funds of the
all-zero contract header. -/
def exHost1 : HostDBEntry := ⟨0, 1, 0, [1, 0, 0], 0⟩

/-- An all-zero contract header. -/
def exHeader1 : ContractHeader := ⟨0, 0, 0, 0, 0, 0⟩

/-- A contract under identifier 1 holding the all-zero header. -/
def exContract1 : SafeContract := ⟨1, exHeader1, [], true⟩

/-- A contract set holding exactly exContract1. -/
def exSet1 : ContractSet := ⟨[(1, exContract1)]⟩

/-- An editor bound to contract 1 against exHost1 at height 0. -/
def exEditor1 : Editor := ⟨1, exHost1, 0⟩

/-- Network outcomes in which every step succeeds. -/
def quietNet : NetOutcomes := ⟨none, none, 7, none⟩

/-- Witness for C1: the funds check fires on a concrete underfunded
contract, with acquisition-only effects and the set unchanged. -/
theorem upload_validation_rejections_witness :
    upload exEditor1 exSet1 [] (fun _ => 0) (fun a b => a + b) quietNet false =
      (Except.error UploadErr.insufficientFunds, acquireOnlyEffects, exSet1) := by
  exact (upload_validation_rejections exEditor1 exSet1 [] (fun _ => 0)
    (fun a b => a + b) quietNet false exContract1 rfl).1 (by decide)

/-- In runRevisionIteration, every error return increments the failed
counter and not the success counter, with no exemption of any kind. -/
theorem runRevisionIteration_error_effects (net : NetOutcomes) (e : NetErr)
    (eff : Effects) (h : runRevisionIteration net = (Except.error e, eff)) :
    eff.failedInc = 1 ∧ eff.successInc = 0 := by
  unfold runRevisionIteration at h
  split at h
  · injection h with h1 h2
    subst h2
    exact ⟨rfl, rfl⟩
  · split at h
    · injection h with h1 h2
      subst h2
      exact ⟨rfl, rfl⟩
    · split at h
      · split at h
        · injection h with h1 h2
          exact Except.noConfusion h1
        · injection h with h1 h2
          subst h2
          exact ⟨rfl, rfl⟩
      · injection h with h1 h2
        exact Except.noConfusion h1

/-- The errors NewEditor can return. -/
inductive NewEditorErr
  | invalidContract
  | net (e : NetErr)
deriving DecidableEq

/-- The first failing handshake step of NewEditor: dialing the host, writing
the RPC marker, then verifying the recent revision. -/
def firstHandshakeErr (dialErr rpcErr verifyErr : Option NetErr) :
    Option NetErr :=
  match dialErr with
  | some e => some e
  | none =>
    match rpcErr with
    | some e => some e
    | none => verifyErr

/-- NewEditor: acquire the contract (the not-found early return precedes the
reputation defer, so it touches no counter); dial the host, write the RPC
marker, verify the recent revision. The deferred reputation update
increments the failed counter only when the error does not satisfy
IsRevisionMismatch, and the success counter when there is no error. -/
def newEditor (found : Bool) (dialErr rpcErr verifyErr : Option NetErr) :
    Except NewEditorErr Unit × Effects :=
  if found = false then (Except.error NewEditorErr.invalidContract, noEffects)
  else
    match firstHandshakeErr dialErr rpcErr verifyErr with
    | some e =>
      if e.isRevisionMismatch then
        (Except.error (NewEditorErr.net e), ⟨1, 3, 0, 0, false⟩)
      else
        (Except.error (NewEditorErr.net e), ⟨1, 3, 1, 0, false⟩)
    | none => (Except.ok (), ⟨1, 3, 0, 1, false⟩)

/-- An error satisfying IsRevisionMismatch. -/
def mismatchErr : NetErr := ⟨true, false, 0⟩

/-- Network outcomes whose first protocol step fails with a revision-number
mismatch. -/
def mismatchNet : NetOutcomes := ⟨some mismatchErr, none, 0, none⟩

/-- A free host: all prices zero, version 1.0.0. -/
def exZeroHost : HostDBEntry := ⟨0, 0, 0, [1, 0, 0], 0⟩

/-- An editor bound to contract 1 against the free host at height 0. -/
def exZeroEditor : Editor := ⟨1, exZeroHost, 0⟩

/-- A set holding contract 1 with the all-zero header, which passes both
validation checks against the free host. -/
def exZeroSet : ContractSet := ⟨[(1, ⟨1, ⟨0, 0, 0, 0, 0, 0⟩, [], true⟩)]⟩

/-- Claim C3 counterexample: a concrete Upload call that reaches the network
exchange and fails with an error satisfying IsRevisionMismatch, yet the
failed-interactions counter is incremented, refuting the claimed
revision-mismatch exemption for Upload. -/
theorem upload_mismatch_still_penalized :
    mismatchErr.isRevisionMismatch = true ∧
    (upload exZeroEditor exZeroSet [] (fun _ => 0) (fun a b => a + b)
        mismatchNet false).1 = Except.error (UploadErr.network mismatchErr) ∧
    (upload exZeroEditor exZeroSet [] (fun _ => 0) (fun a b => a + b)
        mismatchNet false).2.1.failedInc = 1 := by
  refine ⟨rfl, ?_, ?_⟩ <;> rfl

/-- Claim C3 as amended: every Upload call that reaches the network exchange
and fails increments the failed-interactions counter and not the success
counter, with no revision-mismatch exemption; the exemption applies only in
the session-construction handshake (NewEditor), where a failure satisfying
IsRevisionMismatch changes neither counter. -/
theorem upload_failure_always_penalizes :
    (∀ (he : Editor) (cs : ContractSet) (data : List Nat)
        (segHash : List Nat → Hash) (join : Hash → Hash → Hash)
        (net : NetOutcomes) (recordErr : Bool) (e : NetErr) (eff : Effects)
        (st : ContractSet),
      upload he cs data segHash join net recordErr =
          (Except.error (UploadErr.network e), eff, st) →
      eff.failedInc = 1 ∧ eff.successInc = 0) ∧
    (∀ (dialErr rpcErr verifyErr : Option NetErr) (e : NetErr) (eff : Effects),
      newEditor true dialErr rpcErr verifyErr =
          (Except.error (NewEditorErr.net e), eff) →
      e.isRevisionMismatch = true →
      eff.failedInc = 0 ∧ eff.successInc = 0) := by
  constructor
  · intro he cs data segHash join net recordErr e eff st h
    rcases hr : runRevisionIteration net with ⟨res, eff1⟩
    cases hf : findContract cs.contracts he.contractID with
    | none =>
      simp [upload, hf] at h
    | some sc =>
      simp only [upload, hf] at h
      by_cases hfund : sc.header.renterFunds <
          (sectorPrices he.host sc.header he.height).1 +
            (sectorPrices he.host sc.header he.height).2.1
      · simp [hfund] at h
      · by_cases hcol : sc.header.missedCollateralValue <
            (sectorPrices he.host sc.header he.height).2.2
        · simp [hfund, hcol] at h
        · simp only [hfund, hcol, if_false, hr] at h
          cases res with
          | error e1 =>
            simp only [withAcquire, Prod.mk.injEq, Except.error.injEq,
              UploadErr.network.injEq] at h
            obtain ⟨h1, h2, h3⟩ := h
            have hiter := runRevisionIteration_error_effects net e1 eff1 hr
            rw [← h2]
            simpa using hiter
          | ok txn =>
            cases recordErr with
            | true => simp [withAcquire] at h
            | false => simp [withAcquire] at h
  · intro dialErr rpcErr verifyErr e eff h hmis
    unfold newEditor at h
    split at h
    · injection h with h1 h2
      injection h1 with h3
      exact NewEditorErr.noConfusion h3
    · split at h
      · split at h
        · injection h with h1 h2
          subst h2
          exact ⟨rfl, rfl⟩
        · rename_i hb
          injection h with h1 h2
          injection h1 with h3
          injection h3 with h4
          subst h4
          exact absurd hmis hb
      · injection h with h1 h2
        exact Except.noConfusion h1

/-- Witness for the amended C3: the concrete mismatch-failing Upload has the
failed counter at one, and a NewEditor handshake failing with a revision
mismatch leaves both counters at zero. -/
theorem upload_failure_always_penalizes_witness :
    ((⟨1, 1, 1, 0, false⟩ : Effects).failedInc = 1 ∧
      (⟨1, 1, 1, 0, false⟩ : Effects).successInc = 0) ∧
    ((⟨1, 3, 0, 0, false⟩ : Effects).failedInc = 0 ∧
      (⟨1, 3, 0, 0, false⟩ : Effects).successInc = 0) := by
  refine ⟨?_, ?_⟩
  · exact upload_failure_always_penalizes.1 exZeroEditor exZeroSet []
      (fun _ => 0) (fun a b => a + b) mismatchNet false mismatchErr
      (⟨1, 1, 1, 0, false⟩ : Effects) exZeroSet rfl
  · exact upload_failure_always_penalizes.2 (some mismatchErr) none none
      mismatchErr (⟨1, 3, 0, 0, false⟩ : Effects) rfl rfl

/-- The unsupported-operation error. -/
inductive OpErr
  | notSupported
deriving DecidableEq

/-- Editor.Delete: immediately returns the unsupported-operation error. -/
def editorDelete (he : Editor) (cs : ContractSet) (root : Hash) :
    Except OpErr Unit × Effects × ContractSet :=
  (Except.error OpErr.notSupported, noEffects, cs)

/-- Editor.Modify: immediately returns the unsupported-operation error. -/
def editorModify (he : Editor) (cs : ContractSet) (oldRoot newRoot : Hash)
    (offset : Nat) (newData : List Nat) :
    Except OpErr Unit × Effects × ContractSet :=
  (Except.error OpErr.notSupported, noEffects, cs)

/-- Claim C8: for every input, Delete and Modify return the unsupported
error with no network exchange, no contract acquisition and no state
change. -/
theorem delete_modify_unsupported (he : Editor) (cs : ContractSet)
    (root oldRoot newRoot : Hash) (offset : Nat) (newData : List Nat) :
    editorDelete he cs root =
      (Except.error OpErr.notSupported, noEffects, cs) ∧
    editorModify he cs oldRoot newRoot offset newData =
      (Except.error OpErr.notSupported, noEffects, cs) :=
  ⟨rfl, rfl⟩

/-!
## Close (one-shot teardown)
-/

/-- The connection state: whether it has been closed, how many Close calls
it received, and how many of those actually terminated it (a Go net.Conn is
terminated by its first Close; later calls return an error and change
nothing). -/
structure ConnState where
  closed : Bool
  closeCalls : Nat
  terminations : Nat
  deadlineExtensions : Nat
deriving DecidableEq

/-- net.Conn.Close: the first call terminates the connection; every call is
counted. -/
def connClose (c : ConnState) : ConnState :=
  if c.closed then
    ⟨true, c.closeCalls + 1, c.terminations, c.deadlineExtensions⟩
  else
    ⟨true, c.closeCalls + 1, c.terminations + 1, c.deadlineExtensions⟩

/-- The close-relevant state of an Editor: the connection, the sync.Once
guard, and counts of the teardown steps performed (shutdown runs, best
effort settings exchanges, graceful-stop messages) plus whether the
background-watcher signal channel has been closed. -/
structure EditorClose where
  conn : ConnState
  onceUsed : Bool
  shutdownRuns : Nat
  settingsExchanges : Nat
  stopMessages : Nat
  closeChanClosed : Bool
deriving DecidableEq

/-- Editor.shutdown: extend the deadline, attempt the best-effort settings
exchange and graceful-stop message, and close the watcher signal channel. -/
def shutdown (s : EditorClose) : EditorClose :=
  ⟨⟨s.conn.closed, s.conn.closeCalls, s.conn.terminations,
      s.conn.deadlineExtensions + 1⟩,
   s.onceUsed, s.shutdownRuns + 1, s.settingsExchanges + 1,
   s.stopMessages + 1, true⟩

/-- Editor.Close: run shutdown through the sync.Once guard, then close the
connection unconditionally. -/
def closeEditor (s : EditorClose) : EditorClose :=
  let s1 :=
    if s.onceUsed then s
    else
      let s0 := shutdown s
      ⟨s0.conn, true, s0.shutdownRuns, s0.settingsExchanges, s0.stopMessages,
        s0.closeChanClosed⟩
  ⟨connClose s1.conn, s1.onceUsed, s1.shutdownRuns, s1.settingsExchanges,
    s1.stopMessages, s1.closeChanClosed⟩

/-- n successive Close calls. -/
def closeN : Nat → EditorClose → EditorClose
  | 0, s => s
  | n + 1, s => closeN n (closeEditor s)

/-- The editor close-state as NewEditor returns it: connection open, Once
unused, no teardown step performed yet. -/
def freshEditorClose : EditorClose := ⟨⟨false, 0, 0, 0⟩, false, 0, 0, 0, false⟩

/-- The observable teardown outcome: shutdown runs, settings exchanges, stop
messages, watcher channel closed, connection terminations, deadline
extensions. -/
def closeStats (s : EditorClose) : Nat × Nat × Nat × Bool × Nat × Nat :=
  (s.shutdownRuns, s.settingsExchanges, s.stopMessages, s.closeChanClosed,
    s.conn.terminations, s.conn.deadlineExtensions)

theorem closeEditor_stable (s : EditorClose) (h1 : s.onceUsed = true)
    (h2 : s.conn.closed = true) :
    closeStats (closeEditor s) = closeStats s ∧
    (closeEditor s).onceUsed = true ∧ (closeEditor s).conn.closed = true := by
  simp [closeEditor, connClose, closeStats, h1, h2]

theorem closeN_stable (n : Nat) (s : EditorClose) (h1 : s.onceUsed = true)
    (h2 : s.conn.closed = true) : closeStats (closeN n s) = closeStats s := by
  induction n generalizing s with
  | zero => rfl
  | succ m ih =>
    have hs := closeEditor_stable s h1 h2
    calc closeStats (closeN (m + 1) s) = closeStats (closeN m (closeEditor s)) := rfl
    _ = closeStats (closeEditor s) := ih (closeEditor s) hs.2.1 hs.2.2
    _ = closeStats s := hs.1

/-- Claim C6: starting from a fresh session, any positive number of Close
calls executes the teardown sequence (one deadline extension, one settings
exchange, one graceful-stop message, watcher channel closed) exactly once
and terminates the connection exactly once. -/
theorem close_teardown_once (n : Nat) (hn : 1 ≤ n) :
    closeStats (closeN n freshEditorClose) = (1, 1, 1, true, 1, 1) := by
  obtain ⟨m, rfl⟩ := Nat.exists_eq_add_of_le hn
  have h1 : closeN (1 + m) freshEditorClose =
      closeN m (closeEditor freshEditorClose) := by
    rw [Nat.add_comm]
    rfl
  rw [h1, closeN_stable m (closeEditor freshEditorClose) rfl rfl]
  rfl

/-- Witness for C6 at three Close calls. -/
theorem close_teardown_once_witness :
    (1 : Nat) ≤ 3 ∧
      closeStats (closeN 3 freshEditorClose) = (1, 1, 1, true, 1, 1) :=
  ⟨by decide, close_teardown_once 3 (by decide)⟩

/-!
## ContractSet operations
-/

/-- Modelled from the spec: build.Critical aborts loudly on a programmer
contract violation; distinct from the recoverable errors other operations
return as values. -/
inductive CriticalErr
  | noSuchContract
deriving DecidableEq

/-- ContractSet.Acquire: look the contract up under the map lock and lock it
before returning it; absent contracts yield none and no lock change. -/
def ContractSet.acquire (cs : ContractSet) (id : Nat) :
    Option SafeContract × ContractSet :=
  match findContract cs.contracts id with
  | none => (none, cs)
  | some c =>
    (some c, ⟨updateEntry cs.contracts id
      ⟨c.id, c.header, c.merkleRoots, true⟩⟩)

/-- ContractSet.Return: look the contract up under the map lock; an absent
identifier is a fatal critical error (no normal return), a present one has
its per-contract lock released, the map itself unchanged. -/
def ContractSet.ret (cs : ContractSet) (id : Nat) :
    Except CriticalErr ContractSet :=
  match findContract cs.contracts id with
  | none => Except.error CriticalErr.noSuchContract
  | some c =>
    Except.ok ⟨updateEntry cs.contracts id
      ⟨c.id, c.header, c.merkleRoots, false⟩⟩

/-- Claim C9: releasing an identifier absent from the map does not return
normally but aborts with the fatal no-such-contract critical error; for a
present, previously acquired identifier, Return unlocks exactly that
contract and leaves the map unchanged: same keys, every other entry intact,
and the released entry identical but for its cleared lock flag. -/
theorem return_absent_critical_present_unlocks (cs : ContractSet) (id : Nat) :
    (findContract cs.contracts id = none →
      ContractSet.ret cs id = Except.error CriticalErr.noSuchContract) ∧
    (∀ c : SafeContract, findContract cs.contracts id = some c →
      c.locked = true →
      ∃ m, ContractSet.ret cs id = Except.ok ⟨m⟩ ∧
        m.map Prod.fst = cs.contracts.map Prod.fst ∧
        findContract m id = some ⟨c.id, c.header, c.merkleRoots, false⟩ ∧
        ∀ j, j ≠ id → findContract m j = findContract cs.contracts j) := by
  constructor
  · intro hnone
    simp [ContractSet.ret, hnone]
  · intro c hc hlock
    refine ⟨updateEntry cs.contracts id ⟨c.id, c.header, c.merkleRoots, false⟩,
      ?_, ?_, ?_, ?_⟩
    · simp [ContractSet.ret, hc]
    · exact updateEntry_keys cs.contracts id _
    · exact findContract_updateEntry_self cs.contracts id _ c hc
    · intro j hj
      exact findContract_updateEntry_ne cs.contracts id _ j hj

/-- Witness for C9: the absent branch at identifier 2 and the present branch
at identifier 1 of the singleton example set. -/
theorem return_absent_critical_present_unlocks_witness :
    (ContractSet.ret exSet1 2 = Except.error CriticalErr.noSuchContract) ∧
    (∃ m, ContractSet.ret exSet1 1 = Except.ok ⟨m⟩ ∧
      m.map Prod.fst = exSet1.contracts.map Prod.fst ∧
      findContract m 1 =
        some ⟨exContract1.id, exContract1.header, exContract1.merkleRoots, false⟩ ∧
      ∀ j, j ≠ 1 → findContract m j = findContract exSet1.contracts j) := by
  constructor
  · exact (return_absent_critical_present_unlocks exSet1 2).1 rfl
  · exact (return_absent_critical_present_unlocks exSet1 1).2 exContract1 rfl rfl

/-!
## Journal records and replay
-/

/-- Modelled from the spec: the stable journal record name tag for "set
header" records (the constant lives in the contract persistence file, not
under src; only its identity matters). -/
def updateNameSetHeader : String := "set header"

/-- Modelled from the spec: the stable journal record name tag for "set
sector root" records. -/
def updateNameSetRoot : String := "set sector root"

/-- The payload of an updateSetHeader record: contract identifier and new
header. -/
structure USetHeader where
  id : Nat
  header : ContractHeader
deriving DecidableEq

/-- The payload of an updateSetRoot record: contract identifier, new root,
sector index. -/
structure USetRoot where
  id : Nat
  root : Hash
  index : Nat
deriving DecidableEq

/-- The opaque instruction bytes of a journal record, as the data they
decode to: a header payload, a root payload, or bytes that decode as
neither. -/
inductive Payload
  | header (u : USetHeader)
  | root (u : USetRoot)
  | junk (bytes : List Nat)
deriving DecidableEq

/-- A writeaheadlog.Update: a name tag plus instruction bytes. -/
structure Update where
  name : String
  instructions : Payload
deriving DecidableEq

/-- The errors replay can produce: encoding.Unmarshal failure or a record
naming an absent contract. -/
inductive ReplayErr
  | unmarshalFailed
  | noSuchContract
deriving DecidableEq

/-- Modelled from the spec: SafeContract.applySetHeader overwrites the
header slot. -/
def applySetHeader (c : SafeContract) (hdr : ContractHeader) : SafeContract :=
  ⟨c.id, hdr, c.merkleRoots, c.locked⟩

/-- Modelled from the spec: SafeContract.applySetRoot overwrites the
manifest slot at the given index (appending when the index is just past the
end). -/
def applySetRoot (c : SafeContract) (root : Hash) (index : Nat) :
    SafeContract :=
  if index < c.merkleRoots.length then
    ⟨c.id, c.header, c.merkleRoots.set index root, c.locked⟩
  else
    ⟨c.id, c.header, c.merkleRoots ++ [root], c.locked⟩

/-- The observable replay actions, in order: applying a record payload to a
contract, and the synchronous flush that follows each application. -/
inductive Event
  | appliedHeader (id : Nat)
  | appliedRoot (id : Nat) (index : Nat)
  | flush (id : Nat)
deriving DecidableEq

/-- applyRecoveredUpdates: for each record, switch on its name tag;
recognized records are unmarshalled (failure aborts replay), the named
contract located (an absent identifier aborts replay), the payload applied
and a synchronous flush issued before the next record is processed; records
with any other name tag are skipped. Returns the final map and the ordered
event trace. -/
def applyRecoveredUpdates : List (Nat × SafeContract) → List Update →
    Except ReplayErr (List (Nat × SafeContract) × List Event)
  | set, [] => Except.ok (set, [])
  | set, u :: rest =>
    if u.name = updateNameSetHeader then
      match u.instructions with
      | Payload.header uh =>
        match findContract set uh.id with
        | none => Except.error ReplayErr.noSuchContract
        | some c =>
          (applyRecoveredUpdates
              (updateEntry set uh.id (applySetHeader c uh.header)) rest).map
            (fun p => (p.1, Event.appliedHeader uh.id :: Event.flush uh.id :: p.2))
      | _ => Except.error ReplayErr.unmarshalFailed
    else if u.name = updateNameSetRoot then
      match u.instructions with
      | Payload.root ur =>
        match findContract set ur.id with
        | none => Except.error ReplayErr.noSuchContract
        | some c =>
          (applyRecoveredUpdates
              (updateEntry set ur.id (applySetRoot c ur.root ur.index)) rest).map
            (fun p =>
              (p.1, Event.appliedRoot ur.id ur.index :: Event.flush ur.id :: p.2))
      | _ => Except.error ReplayErr.unmarshalFailed
    else applyRecoveredUpdates set rest

/-!
## Contract set construction
-/

/-- filepath.Ext: the suffix of the name beginning at its final dot,
including the dot; empty when the name has no dot. -/
def fileExt (s : String) : String :=
  if s.data.contains (Char.ofNat 46) then
    String.mk (Char.ofNat 46 ::
      (s.data.reverse.takeWhile (fun c => c ≠ Char.ofNat 46)).reverse)
  else ""

/-- A successfully opened storage directory: its directory bit and the file
names it lists. -/
structure DirInfo where
  isDir : Bool
  names : List String
deriving DecidableEq

/-- The errors NewContractSet can return. -/
inductive InitErr
  | openFailed
  | notADirectory
  | walFailed
  | loadFailed
  | replayFailed
deriving DecidableEq

/-- The contract-file loading loop of NewContractSet: skip every file name
whose extension is not the string "contract" (the literal the source
compares filepath.Ext against), parse the rest through the given loader
(failure aborts construction), and key each loaded contract by its metadata
identifier. -/
def loadContracts (load : String → Option SafeContract) :
    List String → List (Nat × SafeContract) →
    Option (List (Nat × SafeContract))
  | [], acc => some acc
  | n :: rest, acc =>
    if fileExt n ≠ "contract" then loadContracts load rest acc
    else
      match load n with
      | none => none
      | some c =>
        loadContracts load rest
          (if (findContract acc c.id).isSome then updateEntry acc c.id c
           else acc ++ [(c.id, c)])

/-- NewContractSet: open the directory (failing when the open fails or the
path is not a directory), open the write-ahead log obtaining the recovered
updates (failing when that fails), load the contract files, then apply the
recovered updates (failing when replay fails). dirOpen and walOpen model
the filesystem outcomes; load models parsing one contract file. -/
def newContractSet (dirOpen : Option DirInfo) (walOpen : Option (List Update))
    (load : String → Option SafeContract) : Except InitErr ContractSet :=
  match dirOpen with
  | none => Except.error InitErr.openFailed
  | some d =>
    if !d.isDir then Except.error InitErr.notADirectory
    else
      match walOpen with
      | none => Except.error InitErr.walFailed
      | some updates =>
        match loadContracts load d.names [] with
        | none => Except.error InitErr.loadFailed
        | some set =>
          match applyRecoveredUpdates set updates with
          | Except.error _ => Except.error InitErr.replayFailed
          | Except.ok (set2, _) => Except.ok ⟨set2⟩

/-- Claim C5: a recovered record tagged set-header or set-sector-root whose
contract identifier is absent from the loaded set makes replay fail with the
no-such-contract error; for a present identifier the payload is applied to
the header or manifest slot and the synchronous flush event precedes
everything the remaining records produce; and a replay error makes registry
construction fail. -/
theorem replay_applies_known_records (set : List (Nat × SafeContract))
    (u : Update) (rest : List Update) :
    (∀ uh : USetHeader, u.name = updateNameSetHeader →
      u.instructions = Payload.header uh →
      ((findContract set uh.id = none →
          applyRecoveredUpdates set (u :: rest) =
            Except.error ReplayErr.noSuchContract) ∧
       (∀ c, findContract set uh.id = some c →
          applyRecoveredUpdates set (u :: rest) =
            (applyRecoveredUpdates
                (updateEntry set uh.id (applySetHeader c uh.header)) rest).map
              (fun p => (p.1,
                Event.appliedHeader uh.id :: Event.flush uh.id :: p.2))))) ∧
    (∀ ur : USetRoot, u.name = updateNameSetRoot →
      u.instructions = Payload.root ur →
      ((findContract set ur.id = none →
          applyRecoveredUpdates set (u :: rest) =
            Except.error ReplayErr.noSuchContract) ∧
       (∀ c, findContract set ur.id = some c →
          applyRecoveredUpdates set (u :: rest) =
            (applyRecoveredUpdates
                (updateEntry set ur.id (applySetRoot c ur.root ur.index))
                rest).map
              (fun p => (p.1,
                Event.appliedRoot ur.id ur.index :: Event.flush ur.id :: p.2))))) ∧
    (∀ (names : List String) (load : String → Option SafeContract)
        (updates : List Update) (m : List (Nat × SafeContract)) (e : ReplayErr),
      loadContracts load names [] = some m →
      applyRecoveredUpdates m updates = Except.error e →
      newContractSet (some ⟨true, names⟩) (some updates) load =
        Except.error InitErr.replayFailed) := by
  refine ⟨?_, ?_, ?_⟩
  · intro uh hn hi
    constructor
    · intro hnone
      simp [applyRecoveredUpdates, hn, hi, hnone]
    · intro c hc
      simp [applyRecoveredUpdates, hn, hi, hc]
  · intro ur hn hi
    have hne : updateNameSetRoot ≠ updateNameSetHeader := by decide
    constructor
    · intro hnone
      simp [applyRecoveredUpdates, hn, hi, hnone, hne]
    · intro c hc
      simp [applyRecoveredUpdates, hn, hi, hc, hne]
  · intro names load updates m e hl hr
    simp [newContractSet, hl, hr]

/-- Witness for C5: a concrete set-header record for the present contract 1
is applied and flushed. -/
theorem replay_applies_known_records_witness :
    applyRecoveredUpdates [(1, exContract1)]
        [⟨updateNameSetHeader, Payload.header ⟨1, exHeader1⟩⟩] =
      (applyRecoveredUpdates
          (updateEntry [(1, exContract1)] 1
            (applySetHeader exContract1 exHeader1)) []).map
        (fun p => (p.1, Event.appliedHeader 1 :: Event.flush 1 :: p.2)) := by
  exact ((replay_applies_known_records [(1, exContract1)]
    ⟨updateNameSetHeader, Payload.header ⟨1, exHeader1⟩⟩ []).1 ⟨1, exHeader1⟩
    rfl rfl).2 exContract1 rfl

/-- Claim C10: a recovered record whose name tag is neither set-header nor
set-sector-root is silently skipped: replay of the remaining records
proceeds as if the record were absent, with no error, no event and no
contract changed. -/
theorem replay_skips_unknown_records (set : List (Nat × SafeContract))
    (u : Update) (rest : List Update) (h1 : u.name ≠ updateNameSetHeader)
    (h2 : u.name ≠ updateNameSetRoot) :
    applyRecoveredUpdates set (u :: rest) = applyRecoveredUpdates set rest := by
  simp [applyRecoveredUpdates, h1, h2]

/-- Witness for C10 at a concrete unrecognized record. -/
theorem replay_skips_unknown_records_witness :
    applyRecoveredUpdates [(1, exContract1)]
        [⟨"checkpoint", Payload.junk [3, 4]⟩] =
      applyRecoveredUpdates [(1, exContract1)] [] :=
  replay_skips_unknown_records [(1, exContract1)]
    ⟨"checkpoint", Payload.junk [3, 4]⟩ [] (by decide) (by decide)

/-- filepath.Ext is either empty or begins with a dot, so it never equals
the dotless literal the loading loop compares against. -/
theorem fileExt_ne_contract (s : String) : fileExt s ≠ "contract" := by
  unfold fileExt
  split
  · intro h
    rw [show ("contract" : String) =
        String.mk [Char.ofNat 99, Char.ofNat 111, Char.ofNat 110,
          Char.ofNat 116, Char.ofNat 114, Char.ofNat 97, Char.ofNat 99,
          Char.ofNat 116] from rfl] at h
    injection h with h2
    injection h2 with h3 h4
    exact absurd h3 (by decide)
  · intro h
    exact absurd h (by decide)

/-- Because of the extension comparison, the loading loop skips every file
name and returns its accumulator unchanged. -/
theorem loadContracts_skips_all (load : String → Option SafeContract)
    (names : List String) (acc : List (Nat × SafeContract)) :
    loadContracts load names acc = some acc := by
  induction names generalizing acc with
  | nil => rfl
  | cons n rest ih =>
    simp [loadContracts, fileExt_ne_contract n, ih]

/-- Claim C4 fails on the code: filepath.Ext yields the extension including
its leading dot, while the loading loop compares it against the dotless
literal, so no contract file is ever loaded. Concretely, a directory listing
the parseable contract file a.contract (holding contract identifier 7) and
an empty journal constructs an empty set in which contract 7 is
unreachable. -/
theorem contract_files_never_loaded :
    newContractSet (some ⟨true, ["a.contract"]⟩) (some [])
        (fun n => if n = "a.contract"
          then some ⟨7, ⟨0, 0, 0, 0, 0, 0⟩, [], false⟩ else none) =
      Except.ok ⟨[]⟩ ∧
    findContract ([] : List (Nat × SafeContract)) 7 = none := by
  exact ⟨rfl, rfl⟩
